import Mathlib

/-!
Verification development for the CSV transaction analyzer (`src/csvapi.py`).

The program is a single-file FastAPI service whose core is a pure, stateless
transform: three cleaning functions (`clean_amount`, `clean_category`,
`clean_date`) plus column inference, a food-keyword filter and a sum, wrapped
in one HTTP handler (`analyze_csv`).  Everything below is a shallow embedding
of that code:

* Python strings are Lean `String`s; all operations are defined on the
  underlying character lists so that concrete runs reduce in the kernel.
  `str.strip` / `str.lower` / the regex `\s` class are modelled on their ASCII
  whitespace fragment.
* Python floats are modelled as exact rationals `ℚ`; `float(...)` is modelled
  on its finite decimal/exponent fragment (`[sign] digits [. digits] [e ...]`).
* A missing value (pandas `NaN`) is `Option.none`; a table cell is
  `Option String`.
* `pandas.read_csv` and the HTTP transport are outside the core: the handler
  model takes the parse outcome (`Except String Table`) as input.  The
  `pd.to_datetime(..., infer_datetime_format=True)` fallback of `clean_date`
  is an opaque library call and is modelled as an oracle parameter.
-/

/-! ## Python string primitives -/

/-- ASCII whitespace, the fragment of Python's `str.strip` default set and of
the regex class `\s` exercised here: space, tab, newline, carriage return,
vertical tab, form feed. -/
def isPySpace (c : Char) : Bool :=
  c.toNat = 32 || c.toNat = 9 || c.toNat = 10 || c.toNat = 13 ||
  c.toNat = 11 || c.toNat = 12

/-- ASCII lowercasing of one character, as Python `str.lower` acts on the
ASCII range: `A`-`Z` (codes 65-90) map 32 codepoints up, all else fixed. -/
def pyLowerChar (c : Char) : Char :=
  if 65 ≤ c.toNat ∧ c.toNat ≤ 90 then Char.ofNat (c.toNat + 32) else c

/-- Drop elements satisfying `p` from both ends of a list (Python `str.strip`
on the character list). -/
def dropBoth (p : Char → Bool) (l : List Char) : List Char :=
  ((l.dropWhile p).reverse.dropWhile p).reverse

/-- Python `str.strip()` (ASCII fragment). -/
def pyStrip (s : String) : String := ⟨dropBoth isPySpace s.data⟩

/-- Python `str.lower()` (ASCII fragment). -/
def pyLower (s : String) : String := ⟨s.data.map pyLowerChar⟩

/-- Python's substring test `needle in hay`. -/
def containsSub (hay needle : String) : Bool :=
  decide (needle.data <:+: hay.data)

/-- Python's `s.endswith(pat)`. -/
def pyEndsWith (s pat : String) : Bool :=
  decide (pat.data <:+ s.data)

/-! ## Amount Normalizer (`clean_amount`, csvapi.py lines 20-38) -/

/-- The currency symbols stripped by `re.sub(r'[$€£¥₹,\s]', '', ...)`:
`$` (36), `€` (8364), `£` (163), `¥` (165), `₹` (8377), `,` (44). -/
def isCurrencySym (c : Char) : Bool :=
  c.toNat = 36 || c.toNat = 8364 || c.toNat = 163 || c.toNat = 165 ||
  c.toNat = 8377 || c.toNat = 44

/-- The `re.sub(r'[$€£¥₹,\s]', '', amount_str)` step: delete every currency
symbol, comma and whitespace character, anywhere in the string. -/
def removeSymbols (s : String) : String :=
  ⟨s.data.filter fun c => !(isCurrencySym c || isPySpace c)⟩

/-- The parentheses-negative step: if the string starts with `(` and ends with
`)`, replace it by `-` followed by the inner text (`'-' + s[1:-1]`). -/
def parenNegate (s : String) : String :=
  if s.data.head? = some '(' ∧ s.data.getLast? = some ')' then
    ⟨'-' :: (s.data.drop 1).dropLast⟩
  else s

/-- Numeric value of a digit list, most significant first. -/
def digitsToNat (l : List Char) : Nat :=
  l.foldl (fun a c => a * 10 + (c.toNat - 48)) 0

/-- A non-empty, all-digit character list. -/
def isDigitList (l : List Char) : Bool :=
  !l.isEmpty && l.all (·.isDigit)

/-- Split a leading `-` or `+` sign; returns (is-negative, remainder). -/
def splitSign : List Char → Bool × List Char
  | '-' :: r => (true, r)
  | '+' :: r => (false, r)
  | r => (false, r)

/-- Split at the first `e`/`E` into mantissa text and exponent text. -/
def expSplit (l : List Char) : List Char × Option (List Char) :=
  match l.span fun c => !(c = 'e' || c = 'E') with
  | (m, []) => (m, none)
  | (m, _ :: r) => (m, some r)

/-- Parse `digits [. digits]` (at least one digit, at most one dot) into the
digit value together with the number of fractional digits. -/
def parseMantissa (l : List Char) : Option (Nat × Nat) :=
  match l.splitOn '.' with
  | [a] => if isDigitList a then some (digitsToNat a, 0) else none
  | [a, b] =>
    if (a.all (·.isDigit) && b.all (·.isDigit)) && !(a.isEmpty && b.isEmpty) then
      some (digitsToNat (a ++ b), b.length)
    else none
  | _ => none

/-- Parse the exponent part `[sign] digits`. -/
def parseExponent (l : List Char) : Option Int :=
  let (n, r) := splitSign l
  if isDigitList r then
    some (if n then -(digitsToNat r : Int) else (digitsToNat r : Int))
  else none

/-- Assemble `±digits × 10^(e - fracDigits)` as an exact rational. -/
def ratOfParts (neg : Bool) (v : Nat) (fracDigits : Nat) (e : Int) : ℚ :=
  let sn : Int := if neg then -(v : Int) else (v : Int)
  let ex : Int := e - (fracDigits : Int)
  if 0 ≤ ex then Rat.divInt (sn * ((10 ^ ex.toNat : Nat) : Int)) 1
  else Rat.divInt sn ((10 ^ (-ex).toNat : Nat) : Int)

/-- Model of Python `float(...)` on its finite decimal fragment:
optional surrounding whitespace, optional sign, `digits [. digits]` (at least
one digit) and an optional `e`/`E` exponent.  `none` models `ValueError`. -/
def pyFloat (s : String) : Option ℚ :=
  let l := dropBoth isPySpace s.data
  let (neg, rest) := splitSign l
  let (m, e?) := expSplit rest
  match parseMantissa m with
  | none => none
  | some (v, fracDigits) =>
    match e? with
    | none => some (ratOfParts neg v fracDigits 0)
    | some el =>
      match parseExponent el with
      | none => none
      | some e => some (ratOfParts neg v fracDigits e)

/-- `clean_amount` (csvapi.py lines 20-38): absent (`NaN`) or empty input
yields `0.0`; otherwise strip, delete currency symbols / commas / whitespace,
turn a `(...)`-wrapped string into a negated one, and parse as float, with
parse failure yielding `0.0`. -/
def clean_amount (v : Option String) : ℚ :=
  match v with
  | none => 0
  | some s =>
    if s = "" then 0
    else (pyFloat (parenNegate (removeSymbols (pyStrip s)))).getD 0

/-! ## Category Normalizer (`clean_category`, csvapi.py lines 40-44) -/

/-- `clean_category` (csvapi.py lines 40-44): absent input yields `''`,
otherwise `str(x).strip().lower()`. -/
def clean_category (v : Option String) : String :=
  match v with
  | none => ""
  | some s => pyLower (pyStrip s)

/-! ## Date Normalizer (`clean_date`, csvapi.py lines 46-70)

Each entry of the Python `date_formats` list is a `pd.to_datetime(s, format=fmt)`
attempt; this follows `strptime` semantics (full-string match, `%Y` exactly four
digits, `%m`/`%d` one or two digits with range checks, month names
case-insensitive, a space in the format matching a whitespace run) plus the
pandas `Timestamp` range restriction (1677-09-22 .. 2262-04-11 for midnight
timestamps); any failure is caught by the bare `except` and the next format is
tried. -/

/-- A parsed calendar date (the payload of a pandas `Timestamp` here). -/
structure PyDate where
  year : Nat
  month : Nat
  day : Nat
deriving DecidableEq, Repr

/-- Gregorian leap year. -/
def isLeapYear (y : Nat) : Bool :=
  (y % 4 = 0 && y % 100 ≠ 0) || y % 400 = 0

/-- Days in a month. -/
def daysInMonth (y m : Nat) : Nat :=
  if m = 2 then (if isLeapYear y then 29 else 28)
  else if m = 4 || m = 6 || m = 9 || m = 11 then 30 else 31

/-- Lexicographic date order. -/
def dateLe (a b : PyDate) : Bool :=
  a.year < b.year ||
  (a.year = b.year && (a.month < b.month ||
    (a.month = b.month && a.day ≤ b.day)))

/-- The pandas `Timestamp` representable range, at midnight resolution. -/
def inTimestampRange (d : PyDate) : Bool :=
  dateLe ⟨1677, 9, 22⟩ d && dateLe d ⟨2262, 4, 11⟩

/-- Validate month/day ranges and the pandas `Timestamp` bounds; models the
`datetime` construction plus `OutOfBoundsDatetime` check inside
`pd.to_datetime(..., format=...)`. -/
def mkValidDate (y m d : Nat) : Option PyDate :=
  if (1 ≤ m && m ≤ 12) && (1 ≤ d && d ≤ daysInMonth y m)
      && inTimestampRange ⟨y, m, d⟩ then
    some ⟨y, m, d⟩
  else none

/-- `%Y`: exactly four digits. -/
def parseYear4 (l : List Char) : Option Nat :=
  if l.length = 4 && l.all (·.isDigit) then some (digitsToNat l) else none

/-- `%m` / `%d`: one or two digits (range checked by `mkValidDate`). -/
def parseNum2 (l : List Char) : Option Nat :=
  if (l.length = 1 || l.length = 2) && l.all (·.isDigit) then
    some (digitsToNat l)
  else none

/-- Component order of a three-field numeric date format. -/
inductive FieldOrder where
  | ymd
  | mdy
  | dmy
deriving DecidableEq, Repr

/-- One numeric `strptime` format made of three fields joined by a separator
character, e.g. `%Y-%m-%d` is `parseFmtNum .ymd '-'`. -/
def parseFmtNum (ord : FieldOrder) (sep : Char) (s : String) : Option PyDate :=
  match s.data.splitOn sep with
  | [a, b, c] =>
    match ord with
    | .ymd => do
      let y ← parseYear4 a; let m ← parseNum2 b; let d ← parseNum2 c
      mkValidDate y m d
    | .mdy => do
      let m ← parseNum2 a; let d ← parseNum2 b; let y ← parseYear4 c
      mkValidDate y m d
    | .dmy => do
      let d ← parseNum2 a; let m ← parseNum2 b; let y ← parseYear4 c
      mkValidDate y m d
  | _ => none

/-- Full English month names (`%B`), lowercased as `strptime` compares
case-insensitively. -/
def monthNamesFull : List (List Char) :=
  ["january", "february", "march", "april", "may", "june", "july",
   "august", "september", "october", "november", "december"].map String.data

/-- Abbreviated English month names (`%b`). -/
def monthNamesAbbr : List (List Char) :=
  ["jan", "feb", "mar", "apr", "may", "jun", "jul",
   "aug", "sep", "oct", "nov", "dec"].map String.data

/-- Case-insensitive month-name lookup; returns the 1-based month number. -/
def monthFromName (names : List (List Char)) (tok : List Char) : Option Nat :=
  (names.findIdx? fun n => decide (n = tok.map pyLowerChar)).map (· + 1)

/-- Split into maximal whitespace-free tokens (a space in a `strptime` format
matches a whitespace run). -/
def wsTokens (l : List Char) : List (List Char) :=
  (l.splitOnP isPySpace).filter fun t => !t.isEmpty

/-- `%B %d, %Y` / `%b %d, %Y`: month name, whitespace, day immediately
followed by a comma, whitespace, four-digit year. -/
def parseFmtNameMDY (names : List (List Char)) (s : String) : Option PyDate :=
  match wsTokens s.data with
  | [mt, dt, yt] =>
    match dt.getLast? with
    | some ',' => do
      let m ← monthFromName names mt
      let d ← parseNum2 dt.dropLast
      let y ← parseYear4 yt
      mkValidDate y m d
    | _ => none
  | _ => none

/-- `%d %B %Y` / `%d %b %Y`: day, whitespace, month name, whitespace,
four-digit year. -/
def parseFmtNameDMY (names : List (List Char)) (s : String) : Option PyDate :=
  match wsTokens s.data with
  | [dt, mt, yt] => do
    let d ← parseNum2 dt
    let m ← monthFromName names mt
    let y ← parseYear4 yt
    mkValidDate y m d
  | _ => none

/-- The thirteen fixed formats of `date_formats` (csvapi.py lines 54-58), in
source order: `%Y-%m-%d`, `%m/%d/%Y`, `%d/%m/%Y`, `%m-%d-%Y`, `%d-%m-%Y`,
`%Y/%m/%d`, `%d.%m.%Y`, `%m.%d.%Y`, `%Y.%m.%d`, `%B %d, %Y`, `%b %d, %Y`,
`%d %B %Y`, `%d %b %Y`. -/
def dateFormats : List (String → Option PyDate) :=
  [ parseFmtNum .ymd '-',
    parseFmtNum .mdy '/',
    parseFmtNum .dmy '/',
    parseFmtNum .mdy '-',
    parseFmtNum .dmy '-',
    parseFmtNum .ymd '/',
    parseFmtNum .dmy '.',
    parseFmtNum .mdy '.',
    parseFmtNum .ymd '.',
    parseFmtNameMDY monthNamesFull,
    parseFmtNameMDY monthNamesAbbr,
    parseFmtNameDMY monthNamesFull,
    parseFmtNameDMY monthNamesAbbr ]

/-- The `for fmt in date_formats` loop: first successful parse wins. -/
def firstSuccess (fs : List (String → Option PyDate)) (s : String) :
    Option PyDate :=
  match fs with
  | [] => none
  | f :: rest =>
    match f s with
    | some d => some d
    | none => firstSuccess rest s

/-- `clean_date` (csvapi.py lines 46-70): absent or empty input yields the
absence marker; otherwise the stripped text is tried against the thirteen
fixed formats in order, falling back to the generic
`pd.to_datetime(..., infer_datetime_format=True)` inference — an opaque
library call modelled by the `generic` oracle (whose own failure, caught by
the bare `except`, is the oracle returning `none`). -/
def clean_date (generic : String → Option PyDate) (v : Option String) :
    Option PyDate :=
  match v with
  | none => none
  | some s =>
    if s = "" then none
    else
      match firstSuccess dateFormats (pyStrip s) with
      | some d => some d
      | none => generic (pyStrip s)

/-! ## Column Inferrer & Aggregator (`analyze_csv`, csvapi.py lines 72-123) -/

/-- A parsed table as produced by `pd.read_csv`: raw header names (in column
order) and rows of cells, one cell per column, `none` for a missing value. -/
structure Table where
  headers : List String
  rows : List (List (Option String))
deriving DecidableEq, Repr

/-- `df.columns.str.strip().str.lower()` (csvapi.py line 86): the canonical
header set. -/
def canonicalHeaders (t : Table) : List String :=
  t.headers.map fun h => pyLower (pyStrip h)

/-- Amount-like header: `any(word in col for word in ['amount', 'cost',
'price', 'total', 'spend', 'expense'])` (line 89). -/
def isAmountLike (col : String) : Bool :=
  ["amount", "cost", "price", "total", "spend", "expense"].any
    fun word => containsSub col word

/-- Category-like header: keywords `category`, `type`, `class`, `group`
(line 90). -/
def isCategoryLike (col : String) : Bool :=
  ["category", "type", "class", "group"].any fun word => containsSub col word

/-- Date-like header: keywords `date`, `time`, `day` (line 91). -/
def isDateLike (col : String) : Bool :=
  ["date", "time", "day"].any fun word => containsSub col word

/-- Index of the first column whose canonical name satisfies `p`; models
`[col for col in df.columns if ...][0]`.  (Column access by name `df[col]`
resolves to the first column of that canonical name; duplicate canonical
headers are undefined behaviour by design.) -/
def firstMatchIdx (p : String → Bool) : List String → Option Nat
  | [] => none
  | h :: t => if p h then some 0 else (firstMatchIdx p t).map (· + 1)

/-- Amount-column choice (line 94): first amount-like column, else
`df.columns[1]` when more than one column exists, else `df.columns[0]` —
which raises `IndexError` on a zero-column table.  The error branch models
the raised exception. -/
def pickAmountIdx (cols : List String) : Except String Nat :=
  match firstMatchIdx isAmountLike cols with
  | some i => .ok i
  | none =>
    if 1 < cols.length then .ok 1
    else if 0 < cols.length then .ok 0
    else .error "IndexError: index 0 is out of bounds for axis 0 with size 0"

/-- Category-column choice (line 95): first category-like column, else
`df.columns[0]` when at least one column exists, else `None`. -/
def pickCategoryIdx (cols : List String) : Option Nat :=
  match firstMatchIdx isCategoryLike cols with
  | some i => some i
  | none => if 0 < cols.length then some 0 else none

/-- Cell of a row at a column index (`row[col]`); a short row reads as
missing. -/
def cellAt (r : List (Option String)) (i : Nat) : Option String :=
  (r.get? i).getD none

/-- The food keywords (line 110). -/
def foodKeywords : List String :=
  ["food", "restaurant", "grocery", "dining", "meal", "lunch", "dinner",
   "breakfast", "cafe", "fast food", "takeout"]

/-- The food mask predicate (line 111):
`df['clean_category'].str.contains('|'.join(food_keywords), na=False)`.
The keywords contain no regex metacharacters, so the joined pattern matches
exactly when some keyword occurs as a substring. -/
def isFood (c : String) : Bool :=
  foodKeywords.any fun kw => containsSub c kw

/-- Whether a row passes the food mask; depends only on the category cell. -/
def rowIncluded (ci : Nat) (r : List (Option String)) : Bool :=
  isFood (clean_category (cellAt r ci))

/-- `df[food_mask]['clean_amount'].sum()` (line 114) as a single pass over the
rows in source order. -/
def foodTotal (ai ci : Nat) (rows : List (List (Option String))) : ℚ :=
  rows.foldl
    (fun acc r => if rowIncluded ci r then acc + clean_amount (cellAt r ai) else acc)
    0

/-- Floor of a rational, via flooring integer division. -/
def ratFloor (q : ℚ) : Int := Int.fdiv q.num q.den

/-- Round a rational to the nearest integer, ties to even — the semantics of
Python 3 `round`. -/
def roundHalfEven (x : ℚ) : Int :=
  let f := ratFloor x
  let r : ℚ := x - (f : ℚ)
  if r < 1/2 then f
  else if 1/2 < r then f + 1
  else if f % 2 = 0 then f else f + 1

/-- `round(x, 2)` (line 117). -/
def round2 (x : ℚ) : ℚ := Rat.divInt (roundHalfEven (x * 100)) 100

/-- The success payload (lines 116-120): exactly the keys `answer`, `email`
and `exam`. -/
structure ResultRecord where
  answer : ℚ
  email : String
  exam : String
deriving DecidableEq, Repr

/-- The body of the `try:` block (lines 80-120) given an already-parsed table:
column inference, per-row cleaning, food filter, sum, rounding.  An `.error`
is a Python exception escaping to the `except` handler — including the
`HTTPException(400)` raised at line 98, which that handler also catches.
The date column, when present, is cleaned (line 105-107) but its values are
never used afterwards; `generic` is the date-inference oracle. -/
def analyzeCore (generic : String → Option PyDate) (t : Table) :
    Except String ResultRecord :=
  let cols := canonicalHeaders t
  match pickAmountIdx cols with
  | .error e => .error e
  | .ok ai =>
    match pickCategoryIdx cols with
    | none => .error "400: Could not identify category column"
    | some ci =>
      let _cleanDates :=
        (firstMatchIdx isDateLike cols).map fun di =>
          t.rows.map fun r => clean_date generic (cellAt r di)
      .ok { answer := round2 (foodTotal ai ci t.rows)
          , email := "analyst@example.com"
          , exam := "tds-2025-05-roe" }

/-- An HTTP response of the `/analyze` operation: success body, or an
`HTTPException` with status code and detail. -/
inductive Response where
  | success (body : ResultRecord)
  | failure (status : Nat) (detail : String)
deriving DecidableEq, Repr

/-- The `analyze_csv` handler (csvapi.py lines 72-123).  The filename check
(line 77) runs before the `try:` block, so its `HTTPException(400)`
propagates; `parsed` is the outcome of reading/decoding/`pd.read_csv`-parsing
the uploaded payload, whose failure — like every exception inside the
`try:` block — is converted by the `except Exception` handler (line 122-123)
into a 500 with detail `"Error processing CSV: ..."`. -/
def analyze_csv (generic : String → Option PyDate) (filename : String)
    (parsed : Except String Table) : Response :=
  if !(pyEndsWith filename ".csv") then .failure 400 "File must be a CSV"
  else
    match parsed with
    | .error e => .failure 500 ("Error processing CSV: " ++ e)
    | .ok t =>
      match analyzeCore generic t with
      | .error e => .failure 500 ("Error processing CSV: " ++ e)
      | .ok r => .success r

/-! ## Claims

The `Rat` arithmetic operations are `@[irreducible]` in the library; they are
made semireducible locally so that concrete runs of the pipeline can be
evaluated by `decide`. -/

section
attribute [local semireducible] Rat.add Rat.mul Rat.sub Rat.inv Rat.ofScientific

/-- C1: the claim says a table on which no category column can be selected
(no category-like canonical header and no fallback column, i.e. zero columns)
fails with `MissingCategoryColumn` surfaced as a 4xx client error.  The code
disagrees: on a zero-column table the amount-column fallback
`df.columns[0]` (line 94) raises `IndexError` before the category check is
even reached, and every exception inside the `try:` block — including the
`HTTPException(400)` of line 98, were it reached — is caught by the blanket
`except Exception` (line 122) and re-raised as a 500 server error.  This
theorem evaluates the handler at such a table and shows the surfaced response
is a 500, not a 4xx. -/
theorem C1_zero_column_table_yields_500 :
    analyze_csv (fun _ => none) "data.csv" (.ok ⟨[], []⟩) =
      .failure 500
        "Error processing CSV: IndexError: index 0 is out of bounds for axis 0 with size 0" := by
  decide

/-- C9: an upload whose filename does not end in `.csv` is rejected with the
400 client error `File must be a CSV`, and the response is independent of the
payload (the filename check at line 77 precedes the read/decode/parse inside
the `try:` block), for every date-inference oracle. -/
theorem C9_non_csv_filename_rejected (generic : String → Option PyDate)
    (fn : String) (h : pyEndsWith fn ".csv" = false)
    (p p' : Except String Table) :
    analyze_csv generic fn p = .failure 400 "File must be a CSV" ∧
    analyze_csv generic fn p = analyze_csv generic fn p' := by
  constructor <;> simp [analyze_csv, h]

/-- Witness for C9 at the spec's own example `report.txt`: rejected, and the
response does not depend on whether the payload even parses. -/
theorem C9_non_csv_filename_rejected_witness :
    analyze_csv (fun _ => none) "report.txt" (.ok ⟨["a"], []⟩) =
      .failure 400 "File must be a CSV" ∧
    analyze_csv (fun _ => none) "report.txt" (.ok ⟨["a"], []⟩) =
      analyze_csv (fun _ => none) "report.txt" (.error "UnicodeDecodeError") :=
  C9_non_csv_filename_rejected (fun _ => none) "report.txt" (by decide) _ _

/-- C7: the Amount Normalizer is total — absent input yields exactly `0`,
empty input yields exactly `0`, and whenever the cleaned text fails to parse
as a float the result is `0`; no input signals an error (the function is
everywhere defined into `ℚ` by construction). -/
theorem C7_amount_normalizer_total :
    clean_amount none = 0 ∧ clean_amount (some "") = 0 ∧
    ∀ s : String,
      pyFloat (parenNegate (removeSymbols (pyStrip s))) = none →
      clean_amount (some s) = 0 := by
  refine ⟨rfl, rfl, fun s h => ?_⟩
  by_cases hs : s = "" <;> simp [clean_amount, hs, h]

/-- Witness for C7: unparseable cleaned text yields `0`. -/
theorem C7_amount_normalizer_total_witness : clean_amount (some "twelve") = 0 :=
  C7_amount_normalizer_total.2.2 "twelve" (by decide)

/-- C3: the Amount Normalizer's cleaning pass. (1) after symbol removal no
currency symbol, comma or whitespace character remains anywhere in the
string; (2) whenever the symbol-stripped text is wrapped in parentheses, the
result is the parse of the inner text with a minus sign prepended;
(3) `"$1,234.50"` yields `1234.50`; (4) `"(42.00)"` yields `-42.00`. -/
theorem C3_amount_normalizer_cleaning :
    (∀ s : String, ∀ c ∈ (removeSymbols s).data,
      isCurrencySym c = false ∧ isPySpace c = false) ∧
    (∀ s u : String, removeSymbols (pyStrip s) = u →
      u.data.head? = some '(' → u.data.getLast? = some ')' →
      clean_amount (some s) = (pyFloat ⟨'-' :: (u.data.drop 1).dropLast⟩).getD 0) ∧
    clean_amount (some "$1,234.50") = 1234.5 ∧
    clean_amount (some "(42.00)") = -42 := by
  refine ⟨?_, ?_, ?_, ?_⟩
  · intro s c hc
    have := List.of_mem_filter hc
    constructor
    · cases h : isCurrencySym c <;> simp [h] at this ⊢
    · cases h : isPySpace c <;> simp [h] at this ⊢
  · intro s u hu hopen hclose
    have hs : s ≠ "" := by
      rintro rfl
      have hu0 : u = "" := by rw [← hu]; decide
      subst hu0
      exact absurd hopen (by decide)
    have hparen : parenNegate u = ⟨'-' :: (u.data.drop 1).dropLast⟩ := by
      simp [parenNegate, hopen, hclose]
    rw [clean_amount, if_neg hs, hu, hparen]
  · decide
  · decide

/-- Witness for C3: the no-symbols-remain part at `"a,b"` and the
parenthesis law at `"(42.00)"`. -/
theorem C3_amount_normalizer_cleaning_witness :
    (isCurrencySym 'a' = false ∧ isPySpace 'a' = false) ∧
    clean_amount (some "(42.00)") =
      (pyFloat ⟨'-' :: ("(42.00)".data.drop 1).dropLast⟩).getD 0 :=
  ⟨C3_amount_normalizer_cleaning.1 "a,b" 'a' (by decide),
   C3_amount_normalizer_cleaning.2.1 "(42.00)" "(42.00)" (by decide) (by decide)
     (by decide)⟩

/-- C2: a row passes the food mask exactly when some fixed food keyword
occurs as a substring of its `clean_category`; an empty `clean_category` is
always excluded; and inclusion depends only on the category cell — changing
a row's other cells (amount or date, parsed or not) cannot change the mask. -/
theorem C2_food_filter_characterisation (ci : Nat) (r : List (Option String)) :
    (rowIncluded ci r = true ↔
      ∃ kw ∈ foodKeywords, kw.data <:+: (clean_category (cellAt r ci)).data) ∧
    (clean_category (cellAt r ci) = "" → rowIncluded ci r = false) ∧
    (∀ r' : List (Option String), cellAt r' ci = cellAt r ci →
      rowIncluded ci r' = rowIncluded ci r) := by
  refine ⟨?_, ?_, ?_⟩
  · simp [rowIncluded, isFood, List.any_eq_true, containsSub]
  · intro h
    simp only [rowIncluded, h]
    decide
  · intro r' h
    simp only [rowIncluded, h]

/-- Witness for C2: `"Grocery Store"` is included (keyword `grocery`),
via the characterisation. -/
theorem C2_food_filter_characterisation_witness :
    rowIncluded 0 [some "Grocery Store"] = true :=
  (C2_food_filter_characterisation 0 [some "Grocery Store"]).1.mpr
    ⟨"grocery", by decide, by decide⟩

/-! Character-level facts used for the idempotence of `clean_category`. -/

lemma toNat_charOfNat_small (n : Nat) (h : n < 55296) :
    (Char.ofNat n).toNat = n := by
  have hv : n.isValidChar := Or.inl h
  rw [Char.ofNat, dif_pos hv]
  rfl

lemma pyLowerChar_toNat (c : Char) :
    (pyLowerChar c).toNat =
      if 65 ≤ c.toNat ∧ c.toNat ≤ 90 then c.toNat + 32 else c.toNat := by
  rw [pyLowerChar]
  split
  · next h => exact toNat_charOfNat_small _ (by omega)
  · rfl

lemma pyLowerChar_idem (c : Char) :
    pyLowerChar (pyLowerChar c) = pyLowerChar c := by
  by_cases h : 65 ≤ c.toNat ∧ c.toNat ≤ 90
  · have ht : (pyLowerChar c).toNat = c.toNat + 32 := by
      rw [pyLowerChar_toNat, if_pos h]
    rw [pyLowerChar, if_neg (by omega)]
  · rw [pyLowerChar, if_neg (by rw [pyLowerChar_toNat, if_neg h]; exact h)]

lemma isPySpace_pyLowerChar (c : Char) :
    isPySpace (pyLowerChar c) = isPySpace c := by
  by_cases h : 65 ≤ c.toNat ∧ c.toNat ≤ 90
  · have ht : (pyLowerChar c).toNat = c.toNat + 32 := by
      rw [pyLowerChar_toNat, if_pos h]
    rw [isPySpace, isPySpace, ht]
    apply Bool.eq_iff_iff.mpr
    simp only [Bool.or_eq_true, decide_eq_true_eq]
    omega
  · rw [pyLowerChar, if_neg h]

/-! List-level facts about `dropWhile` from both ends. -/

lemma dropWhile_map_comm (f : Char → Char) (p : Char → Bool)
    (hp : ∀ c, p (f c) = p c) (l : List Char) :
    List.dropWhile p (l.map f) = (List.dropWhile p l).map f := by
  induction l with
  | nil => rfl
  | cons a l ih =>
    by_cases h : p a = true <;>
      simp [List.dropWhile_cons, hp a, h, ih]

lemma dropBoth_map_comm (f : Char → Char) (p : Char → Bool)
    (hp : ∀ c, p (f c) = p c) (l : List Char) :
    dropBoth p (l.map f) = (dropBoth p l).map f := by
  rw [dropBoth, dropBoth, dropWhile_map_comm f p hp, ← List.map_reverse,
    dropWhile_map_comm f p hp, ← List.map_reverse]

lemma dropWhile_idem (p : Char → Bool) (l : List Char) :
    List.dropWhile p (List.dropWhile p l) = List.dropWhile p l := by
  induction l with
  | nil => rfl
  | cons a l ih =>
    by_cases h : p a = true <;> simp [List.dropWhile_cons, h, ih]

lemma head?_dropWhile_false (p : Char → Bool) (l : List Char) (a : Char)
    (h : (List.dropWhile p l).head? = some a) : p a = false := by
  induction l with
  | nil => simp at h
  | cons b l ih =>
    by_cases hb : p b = true
    · rw [List.dropWhile_cons, if_pos hb] at h
      exact ih h
    · rw [List.dropWhile_cons, if_neg hb] at h
      obtain rfl : b = a := by simpa using h
      simpa using hb

lemma dropWhile_eq_self_of_head (p : Char → Bool) (l : List Char)
    (h : ∀ a, l.head? = some a → p a = false) : List.dropWhile p l = l := by
  cases l with
  | nil => rfl
  | cons a l => rw [List.dropWhile_cons, if_neg (by simp [h a rfl])]

lemma getLast?_dropWhile_of_ne_nil (p : Char → Bool) (l : List Char)
    (h : List.dropWhile p l ≠ []) :
    (List.dropWhile p l).getLast? = l.getLast? := by
  obtain ⟨t, ht⟩ := List.dropWhile_suffix (l := l) p
  conv_rhs => rw [← ht]
  rw [List.getLast?_append, List.getLast?_eq_getLast _ h]
  rfl

lemma dropBoth_idem (p : Char → Bool) (l : List Char) :
    dropBoth p (dropBoth p l) = dropBoth p l := by
  by_cases hw : List.dropWhile p (List.dropWhile p l).reverse = []
  · rw [dropBoth, dropBoth, hw]
    simp
  · have hstep : List.dropWhile p (dropBoth p l) = dropBoth p l := by
      apply dropWhile_eq_self_of_head
      intro a ha
      rw [dropBoth, List.head?_reverse] at ha
      rw [getLast?_dropWhile_of_ne_nil p _ hw, List.getLast?_reverse] at ha
      exact head?_dropWhile_false p l a ha
    rw [dropBoth, hstep, dropBoth, List.reverse_reverse, dropWhile_idem]

/-! String-level normalizer algebra. -/

lemma pyStrip_pyLower_comm (s : String) :
    pyStrip (pyLower s) = pyLower (pyStrip s) := by
  show (⟨dropBoth isPySpace (s.data.map pyLowerChar)⟩ : String) =
    ⟨(dropBoth isPySpace s.data).map pyLowerChar⟩
  exact congrArg String.mk
    (dropBoth_map_comm pyLowerChar isPySpace isPySpace_pyLowerChar s.data)

lemma pyStrip_idem (s : String) : pyStrip (pyStrip s) = pyStrip s := by
  show (⟨dropBoth isPySpace (dropBoth isPySpace s.data)⟩ : String) =
    ⟨dropBoth isPySpace s.data⟩
  exact congrArg String.mk (dropBoth_idem isPySpace s.data)

lemma pyLower_idem (s : String) : pyLower (pyLower s) = pyLower s := by
  show (⟨(s.data.map pyLowerChar).map pyLowerChar⟩ : String) =
    ⟨s.data.map pyLowerChar⟩
  refine congrArg String.mk ?_
  rw [List.map_map]
  exact List.map_congr_left fun a _ => pyLowerChar_idem a

/-! Characterisation of the `for fmt in date_formats` loop. -/

lemma firstSuccess_of_earlier_none (s : String) :
    ∀ (fs : List (String → Option PyDate)) (i : Nat)
      (f : String → Option PyDate) (d : PyDate),
      fs.get? i = some f → f s = some d →
      (∀ k f', k < i → fs.get? k = some f' → f' s = none) →
      firstSuccess fs s = some d := by
  intro fs
  induction fs with
  | nil => intro i f d hget; simp at hget
  | cons f0 rest ih =>
    intro i f d hget hf hmin
    cases i with
    | zero =>
      obtain rfl : f0 = f := by simpa using hget
      rw [firstSuccess, hf]
    | succ i =>
      have h0 : f0 s = none := hmin 0 f0 (Nat.succ_pos i) rfl
      rw [firstSuccess, h0]
      exact ih i f d (by simpa using hget) hf
        fun k f' hk hg => hmin (k + 1) f' (by omega) hg

lemma firstSuccess_of_all_none (s : String) :
    ∀ fs : List (String → Option PyDate),
      (∀ f ∈ fs, f s = none) → firstSuccess fs s = none := by
  intro fs
  induction fs with
  | nil => intro; rfl
  | cons f0 rest ih =>
    intro h
    rw [firstSuccess, h f0 (List.mem_cons_self f0 rest)]
    exact ih fun f hf => h f (List.mem_cons_of_mem f0 hf)

/-- C4: the Date Normalizer. (1) absent input yields the absence marker;
(2) so does empty input; (3) when the `i`-th of the thirteen fixed formats
(in the source's priority order) parses the stripped text and every earlier
format fails, the result is that parse — independent of the generic
inference; (4) when all thirteen formats fail, the result is the generic
inference's answer on the stripped text; (5) when the generic inference also
fails, the result is the absence marker — no input signals an error (the
function is everywhere defined by construction). -/
theorem C4_date_normalizer_ladder (generic : String → Option PyDate) :
    clean_date generic none = none ∧
    clean_date generic (some "") = none ∧
    (∀ s : String, s ≠ "" → ∀ (i : Nat) (f : String → Option PyDate)
      (d : PyDate), dateFormats.get? i = some f → f (pyStrip s) = some d →
      (∀ k f', k < i → dateFormats.get? k = some f' → f' (pyStrip s) = none) →
      clean_date generic (some s) = some d) ∧
    (∀ s : String, s ≠ "" → (∀ f ∈ dateFormats, f (pyStrip s) = none) →
      clean_date generic (some s) = generic (pyStrip s)) ∧
    (∀ s : String, s ≠ "" → (∀ f ∈ dateFormats, f (pyStrip s) = none) →
      generic (pyStrip s) = none → clean_date generic (some s) = none) := by
  refine ⟨rfl, rfl, ?_, ?_, ?_⟩
  · intro s hs i f d hget hf hmin
    rw [clean_date, if_neg hs,
      firstSuccess_of_earlier_none (pyStrip s) dateFormats i f d hget hf hmin]
  · intro s hs hall
    rw [clean_date, if_neg hs, firstSuccess_of_all_none (pyStrip s) dateFormats hall]
  · intro s hs hall hg
    rw [clean_date, if_neg hs, firstSuccess_of_all_none (pyStrip s) dateFormats hall, hg]

/-- Witness for C4: `"01/02/2003"` does not match `%Y-%m-%d` (format 0) but
matches `%m/%d/%Y` (format 1), giving January 2nd 2003; and for unparseable
text a failing generic inference degrades to the absence marker. -/
theorem C4_date_normalizer_ladder_witness :
    clean_date (fun _ => none) (some "01/02/2003") = some ⟨2003, 1, 2⟩ ∧
    clean_date (fun _ => none) (some "not a date") = none := by
  constructor
  · refine (C4_date_normalizer_ladder fun _ => none).2.2.1 "01/02/2003"
      (by decide) 1 (parseFmtNum .mdy '/') ⟨2003, 1, 2⟩ rfl (by decide) ?_
    intro k f' hk hget
    obtain rfl : k = 0 := by omega
    obtain rfl : parseFmtNum .ymd '-' = f' := by simpa [dateFormats] using hget
    decide
  · refine (C4_date_normalizer_ladder fun _ => none).2.2.2.2 "not a date"
      (by decide) ?_ rfl
    intro f hf
    fin_cases hf <;> decide

/-! Characterisation of first-match column selection. -/

lemma firstMatchIdx_eq_some_of (p : String → Bool) :
    ∀ (l : List String) (i : Nat) (hi : i < l.length),
      p (l.get ⟨i, hi⟩) = true →
      (∀ k (hk : k < i), p (l.get ⟨k, Nat.lt_trans hk hi⟩) = false) →
      firstMatchIdx p l = some i := by
  intro l
  induction l with
  | nil => intro i hi; simp at hi
  | cons a t ih =>
    intro i hi hp hmin
    cases i with
    | zero =>
      have hp0 : p a = true := hp
      rw [firstMatchIdx, if_pos hp0]
    | succ i =>
      have h0 : p a = false := hmin 0 (Nat.succ_pos i)
      have hp1 : p (t.get ⟨i, by simpa using hi⟩) = true := hp
      rw [firstMatchIdx, if_neg (by simp [h0]),
        ih i (by simpa using hi) hp1 fun k hk => hmin (k + 1) (by omega)]
      rfl

lemma firstMatchIdx_eq_none_of (p : String → Bool) :
    ∀ l : List String, (∀ c ∈ l, p c = false) → firstMatchIdx p l = none := by
  intro l
  induction l with
  | nil => intro; rfl
  | cons a t ih =>
    intro h
    rw [firstMatchIdx, if_neg (by simp [h a (List.mem_cons_self a t)]),
      ih fun c hc => h c (List.mem_cons_of_mem a hc)]
    rfl

/-- C5: column selection on a table with at least one column.  The amount
column is the first (in column order) amount-like canonical header; with no
amount-like header it falls back to index 1 when more than one column exists
and to index 0 otherwise.  The category column is the first category-like
canonical header, falling back to index 0. -/
theorem C5_column_selection (t : Table) (cols : List String)
    (_hc : cols = canonicalHeaders t) (hne : cols ≠ []) :
    (∀ i (hi : i < cols.length), isAmountLike (cols.get ⟨i, hi⟩) = true →
      (∀ k (hk : k < i), isAmountLike (cols.get ⟨k, Nat.lt_trans hk hi⟩) = false) →
      pickAmountIdx cols = .ok i) ∧
    ((∀ c ∈ cols, isAmountLike c = false) →
      pickAmountIdx cols = .ok (if 1 < cols.length then 1 else 0)) ∧
    (∀ i (hi : i < cols.length), isCategoryLike (cols.get ⟨i, hi⟩) = true →
      (∀ k (hk : k < i), isCategoryLike (cols.get ⟨k, Nat.lt_trans hk hi⟩) = false) →
      pickCategoryIdx cols = some i) ∧
    ((∀ c ∈ cols, isCategoryLike c = false) → pickCategoryIdx cols = some 0) := by
  refine ⟨?_, ?_, ?_, ?_⟩
  · intro i hi hp hmin
    rw [pickAmountIdx, firstMatchIdx_eq_some_of isAmountLike cols i hi hp hmin]
  · intro hall
    rw [pickAmountIdx, firstMatchIdx_eq_none_of isAmountLike cols hall]
    by_cases h1 : 1 < cols.length <;> simp [h1, List.length_pos.mpr hne]
  · intro i hi hp hmin
    rw [pickCategoryIdx, firstMatchIdx_eq_some_of isCategoryLike cols i hi hp hmin]
  · intro hall
    rw [pickCategoryIdx, firstMatchIdx_eq_none_of isCategoryLike cols hall]
    simp [List.length_pos.mpr hne]

/-- Witness for C5 on headers `Date, Notes` (nothing amount-like or
category-like): the amount column falls back to index 1, the category column
to index 0; and on `Date, Category, Amount` the matching headers win. -/
theorem C5_column_selection_witness :
    pickAmountIdx (canonicalHeaders ⟨["Date", "Notes"], []⟩) = .ok 1 ∧
    pickCategoryIdx (canonicalHeaders ⟨["Date", "Notes"], []⟩) = some 0 ∧
    pickAmountIdx (canonicalHeaders ⟨["Date", "Category", "Amount"], []⟩) = .ok 2 ∧
    pickCategoryIdx (canonicalHeaders ⟨["Date", "Category", "Amount"], []⟩) = some 1 := by
  have h1 := C5_column_selection ⟨["Date", "Notes"], []⟩ _ rfl (by decide)
  have h2 := C5_column_selection ⟨["Date", "Category", "Amount"], []⟩ _ rfl (by decide)
  refine ⟨?_, h1.2.2.2 (by decide), ?_, ?_⟩
  · have := h1.2.1 (by decide)
    rwa [if_pos (by decide)] at this
  · exact h2.1 2 (by decide) (by decide) (by decide)
  · exact h2.2.2.1 1 (by decide) (by decide) (by decide)

/-! The single-pass masked sum equals the filter-then-sum of the spec. -/

lemma foldl_food_eq_filter_sum (ai ci : Nat) :
    ∀ (rows : List (List (Option String))) (init : ℚ),
      rows.foldl
        (fun acc r =>
          if rowIncluded ci r then acc + clean_amount (cellAt r ai) else acc)
        init =
      init + ((rows.filter (rowIncluded ci)).map
        fun r => clean_amount (cellAt r ai)).sum := by
  intro rows
  induction rows with
  | nil => intro init; simp
  | cons r rows ih =>
    intro init
    by_cases h : rowIncluded ci r = true <;>
      simp [List.foldl_cons, List.filter_cons, h, ih, add_assoc]

lemma foodTotal_eq_filter_sum (ai ci : Nat)
    (rows : List (List (Option String))) :
    foodTotal ai ci rows =
      ((rows.filter (rowIncluded ci)).map
        fun r => clean_amount (cellAt r ai)).sum := by
  rw [foodTotal, foldl_food_eq_filter_sum ai ci rows 0, zero_add]

/-- C6: on every successful invocation (any filename, payload and
date-inference oracle), the result record carries exactly the fixed email
constant, the fixed exam constant `tds-2025-05-roe`, and as `answer` the
2-decimal rounding (ties to even) of the sum of `clean_amount` over exactly
the food-filtered rows, taken at the selected amount and category columns.
(`ResultRecord` has exactly the three fields `answer`, `email`, `exam`.) -/
theorem C6_success_record_shape (generic : String → Option PyDate)
    (fn : String) (p : Except String Table) (r : ResultRecord)
    (h : analyze_csv generic fn p = .success r) :
    r.email = "analyst@example.com" ∧ r.exam = "tds-2025-05-roe" ∧
    ∃ (t : Table) (ai ci : Nat), p = .ok t ∧
      pickAmountIdx (canonicalHeaders t) = .ok ai ∧
      pickCategoryIdx (canonicalHeaders t) = some ci ∧
      r.answer = round2 (((t.rows.filter (rowIncluded ci)).map
        fun row => clean_amount (cellAt row ai)).sum) := by
  rw [analyze_csv.eq_def] at h
  by_cases hb : pyEndsWith fn ".csv"
  · rw [if_neg (by simp [hb])] at h
    cases p with
    | error e => simp at h
    | ok t =>
      have h' : (match analyzeCore generic t with
        | Except.error e => Response.failure 500 ("Error processing CSV: " ++ e)
        | Except.ok r0 => Response.success r0) = Response.success r := h
      cases hc : analyzeCore generic t with
      | error e => rw [hc] at h'; simp at h'
      | ok r0 =>
        rw [hc] at h'
        simp only [Response.success.injEq] at h'
        subst h'
        rw [analyzeCore] at hc
        cases ha : pickAmountIdx (canonicalHeaders t) with
        | error e => rw [ha] at hc; simp at hc
        | ok ai =>
          rw [ha] at hc
          cases hcat : pickCategoryIdx (canonicalHeaders t) with
          | none => rw [hcat] at hc; simp at hc
          | some ci =>
            rw [hcat] at hc
            simp only [Except.ok.injEq] at hc
            subst hc
            exact ⟨rfl, rfl, t, ai, ci, rfl, ha, hcat,
              by rw [foodTotal_eq_filter_sum]⟩
  · rw [if_pos (by simp [hb])] at h
    simp at h

/-- Witness for C6 on a concrete successful run: two rows, one food row of
`$50.00`, answer `50`, fixed email and exam constants. -/
theorem C6_success_record_shape_witness :
    (⟨50, "analyst@example.com", "tds-2025-05-roe"⟩ : ResultRecord).email =
      "analyst@example.com" ∧
    (⟨50, "analyst@example.com", "tds-2025-05-roe"⟩ : ResultRecord).exam =
      "tds-2025-05-roe" ∧
    ∃ (t : Table) (ai ci : Nat),
      (Except.ok (⟨["Date", "Category", "Amount"],
        [[some "2024-01-01", some "grocery store", some "$50.00"],
         [some "2024-01-02", some "Transport", some "20"]]⟩ : Table) :
          Except String Table) = .ok t ∧
      pickAmountIdx (canonicalHeaders t) = .ok ai ∧
      pickCategoryIdx (canonicalHeaders t) = some ci ∧
      (⟨50, "analyst@example.com", "tds-2025-05-roe"⟩ : ResultRecord).answer =
        round2 (((t.rows.filter (rowIncluded ci)).map
          fun row => clean_amount (cellAt row ai)).sum) :=
  C6_success_record_shape (fun _ => none) "expenses.csv" _ _ (by decide)

/-! The aggregate depends only on the amount-column and category-column
cells. -/

lemma foldl_food_congr (ai ci : Nat) :
    ∀ (rows₁ rows₂ : List (List (Option String))) (init : ℚ),
      rows₁.length = rows₂.length →
      (∀ j, cellAt (rows₁.getD j []) ai = cellAt (rows₂.getD j []) ai ∧
            cellAt (rows₁.getD j []) ci = cellAt (rows₂.getD j []) ci) →
      rows₁.foldl
        (fun acc r =>
          if rowIncluded ci r then acc + clean_amount (cellAt r ai) else acc)
        init =
      rows₂.foldl
        (fun acc r =>
          if rowIncluded ci r then acc + clean_amount (cellAt r ai) else acc)
        init := by
  intro rows₁
  induction rows₁ with
  | nil =>
    intro rows₂ init hlen
    obtain rfl : rows₂ = [] := by
      cases rows₂ with
      | nil => rfl
      | cons r rs => simp at hlen
    intro
    rfl
  | cons r rs ih =>
    intro rows₂ init hlen hcell
    cases rows₂ with
    | nil => simp at hlen
    | cons r' rs' =>
      have h0a : cellAt r ai = cellAt r' ai := (hcell 0).1
      have h0c : cellAt r ci = cellAt r' ci := (hcell 0).2
      have hinc : rowIncluded ci r = rowIncluded ci r' := by
        rw [rowIncluded, rowIncluded, h0c]
      have hamt : clean_amount (cellAt r ai) = clean_amount (cellAt r' ai) := by
        rw [h0a]
      rw [List.foldl_cons, List.foldl_cons, hinc, hamt]
      exact ih rs' _ (by simpa using hlen) fun j => hcell (j + 1)

lemma foodTotal_congr (ai ci : Nat)
    (rows₁ rows₂ : List (List (Option String)))
    (hlen : rows₁.length = rows₂.length)
    (hcell : ∀ j, cellAt (rows₁.getD j []) ai = cellAt (rows₂.getD j []) ai ∧
      cellAt (rows₁.getD j []) ci = cellAt (rows₂.getD j []) ci) :
    foodTotal ai ci rows₁ = foodTotal ai ci rows₂ :=
  foldl_food_congr ai ci rows₁ rows₂ 0 hlen hcell

/-- C10: the date column never influences the result.  For any two tables
with identical headers and, row by row, identical amount-column and
category-column cells, the analyze operation produces the same outcome
(success or failure), for any two date-inference oracles — the date values
are parsed but take no part in filtering or summation, so two tables
differing only in their date column give the same answer. -/
theorem C10_date_column_no_influence
    (g g' : String → Option PyDate) (t t' : Table)
    (hh : t.headers = t'.headers)
    (hlen : t.rows.length = t'.rows.length)
    (ham : ∀ j ai, pickAmountIdx (canonicalHeaders t) = .ok ai →
      cellAt (t.rows.getD j []) ai = cellAt (t'.rows.getD j []) ai)
    (hcat : ∀ j ci, pickCategoryIdx (canonicalHeaders t) = some ci →
      cellAt (t.rows.getD j []) ci = cellAt (t'.rows.getD j []) ci) :
    analyzeCore g t = analyzeCore g' t' ∧
    ∀ fn, analyze_csv g fn (.ok t) = analyze_csv g' fn (.ok t') := by
  have hch : canonicalHeaders t = canonicalHeaders t' := by
    rw [canonicalHeaders, canonicalHeaders, hh]
  have hcore : analyzeCore g t = analyzeCore g' t' := by
    rw [analyzeCore, analyzeCore, ← hch]
    cases ha : pickAmountIdx (canonicalHeaders t) with
    | error e => rfl
    | ok ai =>
      cases hc : pickCategoryIdx (canonicalHeaders t) with
      | none => rfl
      | some ci =>
        have : foodTotal ai ci t.rows = foodTotal ai ci t'.rows :=
          foodTotal_congr ai ci t.rows t'.rows hlen
            fun j => ⟨ham j ai ha, hcat j ci hc⟩
        simp [this]
  refine ⟨hcore, fun fn => ?_⟩
  rw [analyze_csv, analyze_csv, hcore]

/-- Witness for C10: one-row tables identical except for the date cell
(`2024-01-01` vs `1999-12-31`, with distinct inference oracles) produce the
same core outcome. -/
theorem C10_date_column_no_influence_witness :
    analyzeCore (fun _ => none)
      ⟨["Date", "Category", "Amount"],
        [[some "2024-01-01", some "food", some "5"]]⟩ =
    analyzeCore (fun _ => some ⟨2000, 1, 1⟩)
      ⟨["Date", "Category", "Amount"],
        [[some "1999-12-31", some "food", some "5"]]⟩ := by
  refine (C10_date_column_no_influence (fun _ => none)
    (fun _ => some ⟨2000, 1, 1⟩)
    ⟨["Date", "Category", "Amount"],
      [[some "2024-01-01", some "food", some "5"]]⟩
    ⟨["Date", "Category", "Amount"],
      [[some "1999-12-31", some "food", some "5"]]⟩
    rfl rfl ?_ ?_).1
  · intro j ai h
    have hval : pickAmountIdx (canonicalHeaders
        ⟨["Date", "Category", "Amount"],
          [[some "2024-01-01", some "food", some "5"]]⟩) = Except.ok 2 := rfl
    rw [hval] at h
    obtain rfl : 2 = ai := by injection h
    cases j <;> rfl
  · intro j ci h
    have hval : pickCategoryIdx (canonicalHeaders
        ⟨["Date", "Category", "Amount"],
          [[some "2024-01-01", some "food", some "5"]]⟩) = some 1 := rfl
    rw [hval] at h
    obtain rfl : 1 = ci := by injection h
    cases j <;> rfl

/-- C8: the Category Normalizer is idempotent — applying `clean_category` to
its own output returns that output unchanged, for every input (absent, or
any string). -/
theorem C8_category_normalizer_idempotent (v : Option String) :
    clean_category (some (clean_category v)) = clean_category v := by
  cases v with
  | none =>
    show clean_category (some "") = ""
    decide
  | some s =>
    show pyLower (pyStrip (pyLower (pyStrip s))) = pyLower (pyStrip s)
    rw [pyStrip_pyLower_comm, pyLower_idem, pyStrip_idem]

end
